import Mathlib

/-!
Verification of the runebender core slice: the embedded-glyph component
model (`src/component.rs`) and the toolbar tool-selection state machine
(`src/widgets/toolbar.rs`).

Numeric coefficients in the source are Rust `f64` values. Here an `f64`
value is modelled by its 64-bit IEEE-754 binary64 bit pattern (a `Nat`
below `2 ^ 64`), and Rust `==` on `f64` is modelled by IEEE-754 equality
on bit patterns: it is false when either operand is a NaN, and true
exactly when the operands denote the same number - which for binary64
means identical bit patterns, except that the two zeros `+0.0` and
`-0.0` (bit patterns `0` and `2 ^ 63`) compare equal.
-/

set_option maxHeartbeats 1000000
set_option maxRecDepth 10000

namespace Runebender

/-- An `f64` value, represented by its 64-bit pattern. -/
abbrev F64 := Nat

/-- True when the bit pattern denotes a NaN: exponent field all ones and
a non-zero mantissa field. -/
def f64IsNaN (x : F64) : Bool :=
  decide ((x / 2 ^ 52) % 2 ^ 11 = 2 ^ 11 - 1) && decide (x % 2 ^ 52 ≠ 0)

/-- True when the bit pattern denotes a zero (`+0.0` or `-0.0`): every
bit except possibly the sign bit is clear. -/
def f64IsZero (x : F64) : Bool :=
  decide (x % 2 ^ 63 = 0)

/-- Rust `==` on two `f64` values (IEEE-754 equality): false when either
operand is NaN; otherwise true iff the operands denote the same number,
i.e. the bit patterns coincide or both operands are zeros. -/
def f64Eq (x y : F64) : Bool :=
  !f64IsNaN x && !f64IsNaN y && (decide (x = y) || (f64IsZero x && f64IsZero y))

/-- IEEE-754 equality of two `f64` bit patterns, stated as a proposition. -/
abbrev f64EqP (x y : F64) : Prop :=
  f64IsNaN x = false ∧ f64IsNaN y = false ∧
    (x = y ∨ (f64IsZero x = true ∧ f64IsZero y = true))

/-- A `kurbo::Affine` transform: six `f64` coefficients. -/
structure Affine where
  c0 : F64
  c1 : F64
  c2 : F64
  c3 : F64
  c4 : F64
  c5 : F64
deriving DecidableEq

/-- `Affine::as_coeffs`, returning the six coefficients in order. -/
def Affine.as_coeffs (t : Affine) : List F64 :=
  [t.c0, t.c1, t.c2, t.c3, t.c4, t.c5]

/-- Rust `==` on two coefficient arrays: componentwise `f64` equality,
requiring equal length. -/
def f64ListEq : List F64 → List F64 → Bool
  | [], [] => true
  | x :: xs, y :: ys => f64Eq x y && f64ListEq xs ys
  | _, _ => false

/-- `affine_eq` from `src/component.rs`:
`left.as_coeffs() == right.as_coeffs()`. -/
def affine_eq (left right : Affine) : Bool :=
  f64ListEq left.as_coeffs right.as_coeffs

/-- Modelled from the spec: `EntityId` lives in `src/path.rs`, which is
not among the provided sources. Per the spec it is an opaque identifier
carrying an optional parent scope, allocated freshly for each new
in-session object. It is modelled as a parent index paired with a serial
number drawn from an allocation counter. -/
structure EntityId where
  parent : Nat
  idx : Nat
deriving DecidableEq

/-- Modelled from the spec: `EntityId::new_with_parent` allocates a fresh
identifier in the given parent scope. The allocation counter is passed
and returned explicitly; freshness is `counter + 1`. -/
def EntityId.new_with_parent (parent : Nat) (counter : Nat) : EntityId × Nat :=
  ({ parent := parent, idx := counter }, counter + 1)

/-- A glyph name (`norad::GlyphName`), an opaque string. -/
abbrev GlyphName := String

/-- `Component` from `src/component.rs`: a glyph embedded in another
glyph. -/
structure Component where
  base : GlyphName
  transform : Affine
  id : EntityId
deriving DecidableEq

/-- The exchange-format record `norad::glyph::Component`. -/
structure NoradComponent where
  base : GlyphName
  transform : Affine
  identifier : Option String
deriving DecidableEq

/-- `Component::from_norad`: clones `base`, converts the transform (a
coefficient-for-coefficient copy between the two affine types), and
allocates a fresh `EntityId` with parent `0`. The source record's
`identifier` is never read. The allocation counter is threaded
explicitly. -/
def Component.from_norad (src : NoradComponent) (counter : Nat) : Component × Nat :=
  let alloc := EntityId.new_with_parent 0 counter
  ({ base := src.base, transform := src.transform, id := alloc.1 }, alloc.2)

/-- `Component::to_norad`: clones `base`, converts the transform back,
and always writes `identifier = None`. -/
def Component.to_norad (c : Component) : NoradComponent :=
  { base := c.base, transform := c.transform, identifier := none }

/-- `druid::Data::same` on glyph names: string equality. -/
def GlyphName.same (a b : GlyphName) : Bool := a == b

/-- Modelled from the spec: `EntityId` derives `druid::Data` in
`src/path.rs` (not among the provided sources); the derived `same` on a
plain identifier record is field-wise structural equality. -/
def EntityId.same (a b : EntityId) : Bool := decide (a = b)

/-- The derived `druid::Data::same` for `Component`: the derive compares
every field - `base` with its own `same`, `transform` through the
declared `same_fn` `affine_eq`, and `id` (which carries no `ignore`
attribute) with its own `same`. -/
def Component.same (a b : Component) : Bool :=
  GlyphName.same a.base b.base && affine_eq a.transform b.transform &&
    EntityId.same a.id b.id

/-! ## The toolbar tool-selection state machine (`src/widgets/toolbar.rs`) -/

/-- The `druid::SysMods` modifier sets used by the toolbar hotkeys. -/
inductive SysMods where
  | none
  | shift
deriving DecidableEq

/-- A `druid::HotKey`: a modifier set and a key. -/
structure HotKey where
  mods : SysMods
  key : String
deriving DecidableEq

/-- A key chord arriving as a `druid::KeyEvent`. -/
structure KeyEvent where
  mods : SysMods
  key : String
deriving DecidableEq

/-- `HotKey::matches`: the event carries exactly the chord's modifiers
and key. -/
def HotKey.matches (hk : HotKey) (ev : KeyEvent) : Bool :=
  hk.mods == ev.mods && hk.key == ev.key

/-- A `ToolId` (`crate::tools::ToolId` is a static string). -/
abbrev ToolId := String

/-- A `ToolbarItem`: tool id and hotkey. The `icon` field is pure
geometry consumed only by painting and is omitted. -/
structure ToolbarItem where
  name : ToolId
  hotkey : HotKey
deriving DecidableEq

/-- The `Toolbar` widget state: the ordered item list and the selected
index. `Toolbar::new` builds exactly one child widget per item, so the
child list is represented implicitly by the indices of `items`. -/
structure Toolbar where
  items : List ToolbarItem
  selected : Nat
deriving DecidableEq

/-- `Toolbar::new`: stores the items and starts with `selected = 0`. -/
def Toolbar.new (items : List ToolbarItem) : Toolbar :=
  { items := items, selected := 0 }

/-- `Toolbar::tool_for_keypress`: the first item in order whose hotkey
matches the key event, if any, mapped to its tool id. -/
def Toolbar.tool_for_keypress (tb : Toolbar) (key : KeyEvent) : Option ToolId :=
  (tb.items.find? (fun tool => tool.hotkey.matches key)).map (fun tool => tool.name)

/-- A command on the command bus; the toolbar only reads and emits
`consts::cmd::SET_TOOL`. -/
inductive Cmd where
  | setTool (tool : ToolId)
deriving DecidableEq

/-- The events `Toolbar::event` distinguishes: a `SET_TOOL` command, a
pointer click landing on the slot of a given index, and a raw key
event (which the toolbar's own children ignore; hotkeys are resolved by
an outer widget through `tool_for_keypress` and arrive back as a
`SET_TOOL` command). -/
inductive Event where
  | command (cmd : Cmd)
  | click (slot : Nat)
  | key (ev : KeyEvent)
deriving DecidableEq

/-- Rust `Iterator::position`: the index of the first element satisfying
the predicate. -/
def position {α : Type} (p : α → Bool) : List α → Option Nat
  | [] => none
  | x :: xs => if p x then some 0 else (position p xs).map (fun n => n + 1)

/-- The behaviour of child widget `i` (a `Painter` wrapped in
`on_click`) on its `bool` data: a click gesture over slot `i` sets the
flag to `true`; every other event leaves it unchanged. -/
def childEvent (i : Nat) (ev : Event) (flag : Bool) : Bool :=
  match ev with
  | Event.click j => if i = j then true else flag
  | _ => flag

/-- The child loop of `Toolbar::event`: for each index `i` (running from
the given start index), pass the event to child `i` with
`is_selected = (i == sel)`, and when the child turned the flag on while
`i` is not the selected index, submit `SET_TOOL` with item `i`'s id. -/
def emitLoop (items : List ToolbarItem) (i : Nat) (ev : Event) (sel : Nat) : List Cmd :=
  match items with
  | [] => []
  | item :: rest =>
    (if childEvent i ev (i == sel) && !(i == sel) then [Cmd.setTool item.name] else []) ++
      emitLoop rest (i + 1) ev sel

/-- `Toolbar::event` (the `Widget::event` impl): first, a `SET_TOOL`
command moves `selected` to the position of the named tool in `items`,
keeping the old value when the id is absent; then the child loop runs
with the updated selection and collects the submitted commands. The
returned pair is the updated widget state and the commands submitted to
the bus. -/
def Toolbar.event (tb : Toolbar) (ev : Event) : Toolbar × List Cmd :=
  let sel :=
    match ev with
    | Event.command (Cmd.setTool tool) =>
        (position (fun item => item.name == tool) tb.items).getD tb.selected
    | _ => tb.selected
  ({ items := tb.items, selected := sel }, emitLoop tb.items 0 ev sel)

/-- Folding `Toolbar::event` over a sequence of events, keeping only the
widget state. -/
def Toolbar.processEvents (tb : Toolbar) (evs : List Event) : Toolbar :=
  evs.foldl (fun t e => (t.event e).1) tb

/-- A placeholder item used only as the default of `List.getD` at
in-range indices. -/
def blankItem : ToolbarItem :=
  { name := "", hotkey := { mods := SysMods.none, key := "" } }

/-- The default registry of `impl Default for Toolbar`, in registration
order with its hotkeys. -/
def defaultItems : List ToolbarItem :=
  [ { name := "Select", hotkey := { mods := SysMods.none, key := "v" } },
    { name := "Pen", hotkey := { mods := SysMods.none, key := "p" } },
    { name := "Knife", hotkey := { mods := SysMods.none, key := "e" } },
    { name := "Preview", hotkey := { mods := SysMods.none, key := "h" } },
    { name := "Measure", hotkey := { mods := SysMods.none, key := "m" } },
    { name := "Rectangle", hotkey := { mods := SysMods.none, key := "u" } },
    { name := "Ellipse", hotkey := { mods := SysMods.shift, key := "u" } } ]

/-- `Toolbar::default`. -/
def Toolbar.default : Toolbar := Toolbar.new defaultItems

/-! ## Concrete values used in counterexamples and witnesses -/

/-- The bit pattern of `+0.0`. -/
def posZeroBits : F64 := 0

/-- The bit pattern of `-0.0` (sign bit only). -/
def negZeroBits : F64 := 2 ^ 63

/-- The bit pattern of a quiet NaN. -/
def nanBits : F64 := 2047 * 2 ^ 52 + 2 ^ 51

/-- The transform whose coefficients are all `+0.0`. -/
def zeroAffine : Affine := ⟨0, 0, 0, 0, 0, 0⟩

/-- The transform equal to `zeroAffine` except that the first
coefficient is `-0.0`. -/
def negZeroAffine : Affine := ⟨negZeroBits, 0, 0, 0, 0, 0⟩

/-- A transform whose first coefficient is NaN. -/
def nanAffine : Affine := ⟨nanBits, 0, 0, 0, 0, 0⟩

/-- A sample transform with six distinct small bit patterns (all
finite). -/
def cexAffine : Affine := ⟨1, 2, 3, 4, 5, 6⟩

/-- A sample component. -/
def compA : Component :=
  { base := "A", transform := cexAffine, id := { parent := 0, idx := 0 } }

/-- The same content as `compA` under a different session id. -/
def compB : Component :=
  { base := "A", transform := cexAffine, id := { parent := 0, idx := 1 } }

/-- The key chord `v` with no modifiers. -/
def keyV : KeyEvent := { mods := SysMods.none, key := "v" }

/-- A sample event sequence exercising all three transition kinds. -/
def demoEvents : List Event :=
  [ Event.key { mods := SysMods.none, key := "p" },
    Event.command (Cmd.setTool ("Ellipse")),
    Event.click 0,
    Event.command (Cmd.setTool ("Select")) ]

/-! ## Helper lemmas -/

theorem f64Eq_iff (x y : F64) : f64Eq x y = true ↔ f64EqP x y := by
  simp [f64Eq, f64EqP, Bool.and_eq_true, Bool.or_eq_true, Bool.not_eq_true',
    decide_eq_true_iff, and_assoc]

theorem f64Eq_refl (x : F64) (h : f64IsNaN x = false) : f64Eq x x = true := by
  simp [f64Eq, h]

theorem f64Eq_symm (x y : F64) (h : f64Eq x y = true) : f64Eq y x = true := by
  rw [f64Eq_iff] at h ⊢
  obtain ⟨hx, hy, hxy⟩ := h
  exact ⟨hy, hx, by tauto⟩

theorem f64Eq_trans (x y z : F64) (h1 : f64Eq x y = true) (h2 : f64Eq y z = true) :
    f64Eq x z = true := by
  rw [f64Eq_iff] at h1 h2 ⊢
  obtain ⟨hx, hy, hxy⟩ := h1
  obtain ⟨-, hz, hyz⟩ := h2
  refine ⟨hx, hz, ?_⟩
  rcases hxy with rfl | ⟨zx, zy⟩
  · exact hyz
  · rcases hyz with rfl | ⟨-, zz⟩
    · exact Or.inr ⟨zx, zy⟩
    · exact Or.inr ⟨zx, zz⟩

theorem position_eq_none_iff {α : Type} (p : α → Bool) (l : List α) :
    position p l = none ↔ ∀ x ∈ l, p x = false := by
  induction l with
  | nil => simp [position]
  | cons x xs ih =>
    by_cases hp : p x = true
    · simp [position, hp]
    · simp [position, hp, Option.map_eq_none', ih]

theorem position_lt_length {α : Type} (p : α → Bool) (l : List α) (i : Nat)
    (h : position p l = some i) : i < l.length := by
  induction l generalizing i with
  | nil => simp [position] at h
  | cons x xs ih =>
    by_cases hp : p x = true
    · simp [position, hp] at h
      subst h
      simp
    · simp [position, hp, Option.map_eq_some'] at h
      obtain ⟨k, hk, rfl⟩ := h
      have := ih k hk
      simp
      omega

theorem position_getD {α : Type} (p : α → Bool) (d : α) (l : List α) (i : Nat)
    (h : position p l = some i) : p (l.getD i d) = true := by
  induction l generalizing i with
  | nil => simp [position] at h
  | cons x xs ih =>
    by_cases hp : p x = true
    · simp [position, hp] at h
      simp [← h, hp]
    · simp [position, hp, Option.map_eq_some'] at h
      obtain ⟨k, hk, rfl⟩ := h
      simpa using ih k hk

theorem position_min {α : Type} (p : α → Bool) (d : α) (l : List α) (i : Nat)
    (h : position p l = some i) : ∀ j, j < i → p (l.getD j d) = false := by
  induction l generalizing i with
  | nil => simp [position] at h
  | cons x xs ih =>
    by_cases hp : p x = true
    · simp [position, hp] at h
      omega
    · simp [position, hp, Option.map_eq_some'] at h
      obtain ⟨k, hk, rfl⟩ := h
      intro j hj
      cases j with
      | zero => simpa using hp
      | succ m => simpa using ih k hk m (by omega)

theorem position_complete {α : Type} (p : α → Bool) (d : α) (l : List α) (i : Nat)
    (hlen : i < l.length) (hp : p (l.getD i d) = true)
    (hmin : ∀ j, j < i → p (l.getD j d) = false) : position p l = some i := by
  induction l generalizing i with
  | nil => simp at hlen
  | cons x xs ih =>
    cases i with
    | zero => simp at hp; simp [position, hp]
    | succ k =>
      have hx : p x = false := by simpa using hmin 0 (Nat.succ_pos k)
      have hk : position p xs = some k := by
        refine ih k (by simpa using hlen) (by simpa using hp) ?_
        intro j hj
        simpa using hmin (j + 1) (by omega)
      simp [position, hx, hk]

theorem position_eq_some_iff {α : Type} (p : α → Bool) (d : α) (l : List α) (i : Nat) :
    position p l = some i ↔
      i < l.length ∧ p (l.getD i d) = true ∧ ∀ j, j < i → p (l.getD j d) = false := by
  constructor
  · intro h
    exact ⟨position_lt_length p l i h, position_getD p d l i h, position_min p d l i h⟩
  · intro ⟨h1, h2, h3⟩
    exact position_complete p d l i h1 h2 h3

theorem find?_eq_position_map {α : Type} (p : α → Bool) (d : α) (l : List α) :
    l.find? p = (position p l).map (fun i => l.getD i d) := by
  induction l with
  | nil => rfl
  | cons x xs ih =>
    by_cases hp : p x = true
    · simp [position, hp, List.find?_cons_of_pos]
    · rw [List.find?_cons_of_neg _ (by simp [hp]), ih]
      have hpos : position p (x :: xs) = (position p xs).map (fun n => n + 1) := by
        simp [position, hp]
      rw [hpos, Option.map_map]
      congr 1

theorem tool_for_keypress_eq_position (tb : Toolbar) (k : KeyEvent) :
    tb.tool_for_keypress k =
      (position (fun tool => tool.hotkey.matches k) tb.items).map
        (fun i => (tb.items.getD i blankItem).name) := by
  rw [Toolbar.tool_for_keypress, find?_eq_position_map _ blankItem, Option.map_map]
  rfl

theorem emitLoop_command (items : List ToolbarItem) (i : Nat) (c : Cmd) (sel : Nat) :
    emitLoop items i (Event.command c) sel = [] := by
  induction items generalizing i with
  | nil => rfl
  | cons item rest ih => simp [emitLoop, childEvent, ih (i + 1)]

theorem emitLoop_key (items : List ToolbarItem) (i : Nat) (k : KeyEvent) (sel : Nat) :
    emitLoop items i (Event.key k) sel = [] := by
  induction items generalizing i with
  | nil => rfl
  | cons item rest ih => simp [emitLoop, childEvent, ih (i + 1)]

theorem emitLoop_click_self (items : List ToolbarItem) (i : Nat) (sel : Nat) :
    emitLoop items i (Event.click sel) sel = [] := by
  induction items generalizing i with
  | nil => rfl
  | cons item rest ih =>
    by_cases hi : i = sel
    · subst hi
      simp [emitLoop, childEvent, ih (i + 1)]
    · simp [emitLoop, childEvent, hi, ih (i + 1)]

theorem emitLoop_click_high (items : List ToolbarItem) (i j sel : Nat) (h : j < i) :
    emitLoop items i (Event.click j) sel = [] := by
  induction items generalizing i with
  | nil => rfl
  | cons item rest ih =>
    have hne : i ≠ j := by omega
    simp [emitLoop, childEvent, hne, ih (i + 1) (by omega)]

theorem emitLoop_click_hit (items : List ToolbarItem) (i j sel : Nat)
    (hij : i ≤ j) (h : j - i < items.length) (hs : j ≠ sel) :
    emitLoop items i (Event.click j) sel =
      [Cmd.setTool ((items.getD (j - i) blankItem).name)] := by
  induction items generalizing i with
  | nil => simp at h
  | cons item rest ih =>
    by_cases hji : i = j
    · subst hji
      have hsel : (i == sel) = false := by simpa using hs
      simp [emitLoop, childEvent, hsel, Nat.sub_self,
        emitLoop_click_high rest (i + 1) i sel (by omega)]
    · have hij2 : i + 1 ≤ j := by omega
      obtain ⟨k, hk⟩ : ∃ k, j - i = k + 1 := ⟨j - i - 1, by omega⟩
      have hk2 : j - (i + 1) = k := by omega
      have hlt : j - (i + 1) < rest.length := by
        simp at h
        omega
      rw [hk]
      simp only [emitLoop, childEvent, hji, List.getD_cons_succ]
      rw [ih (i + 1) hij2 hlt, hk2]
      simp

theorem event_items_eq (tb : Toolbar) (ev : Event) : (tb.event ev).1.items = tb.items := rfl

theorem event_click_selected (tb : Toolbar) (j : Nat) :
    (tb.event (Event.click j)).1.selected = tb.selected := rfl

theorem event_key_selected (tb : Toolbar) (k : KeyEvent) :
    (tb.event (Event.key k)).1.selected = tb.selected := rfl

theorem event_command_selected (tb : Toolbar) (tool : ToolId) :
    (tb.event (Event.command (Cmd.setTool tool))).1.selected =
      (position (fun item => item.name == tool) tb.items).getD tb.selected := rfl

theorem event_selected_lt (tb : Toolbar) (ev : Event) (h : tb.selected < tb.items.length) :
    (tb.event ev).1.selected < tb.items.length := by
  cases ev with
  | command c =>
    cases c with
    | setTool tool =>
      rw [event_command_selected]
      cases hp : position (fun item => item.name == tool) tb.items with
      | none => simpa using h
      | some i => simpa using position_lt_length _ _ _ hp
  | click j => rw [event_click_selected]; exact h
  | key k => rw [event_key_selected]; exact h

theorem processEvents_selected_lt (tb : Toolbar) (evs : List Event)
    (h : tb.selected < tb.items.length) :
    (tb.processEvents evs).selected < (tb.processEvents evs).items.length := by
  induction evs generalizing tb with
  | nil => exact h
  | cons e rest ih =>
    have step := event_selected_lt tb e h
    rw [← event_items_eq tb e] at step
    exact ih ((tb.event e).1) step

theorem processEvents_items_eq (tb : Toolbar) (evs : List Event) :
    (tb.processEvents evs).items = tb.items := by
  induction evs generalizing tb with
  | nil => rfl
  | cons e rest ih =>
    have hstep : tb.processEvents (e :: rest) = ((tb.event e).1).processEvents rest := rfl
    rw [hstep, ih ((tb.event e).1), event_items_eq]

/-! ## Claims about the component model -/

/-- C1: exporting the component obtained by importing an exchange record
`r` yields a record whose base equals `r.base`, whose six transform
coefficients equal `r`'s coefficients exactly (bit for bit), and whose
identifier is `none` regardless of `r.identifier`. -/
theorem C1_round_trip (r : NoradComponent) (counter : Nat) :
    ((Component.from_norad r counter).1.to_norad).base = r.base ∧
    ((Component.from_norad r counter).1.to_norad).transform.as_coeffs =
      r.transform.as_coeffs ∧
    ((Component.from_norad r counter).1.to_norad).identifier = none :=
  ⟨rfl, rfl, rfl⟩

/-- C2 counterexample: two components with equal base and identical
transforms but different ids are NOT `same` - the id field participates
in the derived `Data` comparison (the claim says they compare equal). -/
theorem C2_counterexample :
    compA.base = compB.base ∧ compA.transform = compB.transform ∧
      Component.same compA compB = false := by decide

/-- C2 (amended): `Component.same` holds iff `base` is equal, the
transform coefficients are equal under `affine_eq`, AND the ids are
equal - the `id` field is not excluded from the derived comparison. -/
theorem C2_same_iff (a b : Component) :
    Component.same a b = true ↔
      a.base = b.base ∧ affine_eq a.transform b.transform = true ∧ a.id = b.id := by
  simp [Component.same, GlyphName.same, EntityId.same, Bool.and_eq_true, and_assoc]

/-- C2 witness: the amended characterization applied at a concrete
component. -/
theorem C2_witness : Component.same compA compA = true :=
  (C2_same_iff compA compA).mpr ⟨rfl, by decide, rfl⟩

/-- C8 counterexample: the all-`+0.0` transform and the transform whose
first coefficient is `-0.0` satisfy `affine_eq`, yet their coefficient
bit patterns are not identical (the claim says `affine_eq` holds only
for identical bit patterns). -/
theorem C8_counterexample :
    affine_eq zeroAffine negZeroAffine = true ∧
      zeroAffine.as_coeffs ≠ negZeroAffine.as_coeffs := by decide

/-- C8 (amended): `affine_eq` holds iff corresponding coefficients are
IEEE-754-equal: no coefficient is NaN, and each corresponding pair
either has identical bit patterns or both members are zeros (`+0.0` or
`-0.0`). -/
theorem C8_affine_eq_ieee (t1 t2 : Affine) :
    affine_eq t1 t2 = true ↔
      ∀ i, i < 6 → f64EqP (t1.as_coeffs.getD i 0) (t2.as_coeffs.getD i 0) := by
  cases t1 with
  | mk a0 a1 a2 a3 a4 a5 =>
  cases t2 with
  | mk b0 b1 b2 b3 b4 b5 =>
  simp only [affine_eq, Affine.as_coeffs, f64ListEq, Bool.and_eq_true, Bool.and_true]
  constructor
  · rintro ⟨h0, h1, h2, h3, h4, h5⟩ i hi
    interval_cases i
    · exact (f64Eq_iff a0 b0).mp h0
    · exact (f64Eq_iff a1 b1).mp h1
    · exact (f64Eq_iff a2 b2).mp h2
    · exact (f64Eq_iff a3 b3).mp h3
    · exact (f64Eq_iff a4 b4).mp h4
    · exact (f64Eq_iff a5 b5).mp h5
  · intro h
    refine ⟨?_, ?_, ?_, ?_, ?_, ?_⟩
    · exact (f64Eq_iff a0 b0).mpr (h 0 (by omega))
    · exact (f64Eq_iff a1 b1).mpr (h 1 (by omega))
    · exact (f64Eq_iff a2 b2).mpr (h 2 (by omega))
    · exact (f64Eq_iff a3 b3).mpr (h 3 (by omega))
    · exact (f64Eq_iff a4 b4).mpr (h 4 (by omega))
    · exact (f64Eq_iff a5 b5).mpr (h 5 (by omega))

/-- C8 witness: the amended characterization applied at the two zero
transforms. -/
theorem C8_witness : affine_eq zeroAffine negZeroAffine = true :=
  (C8_affine_eq_ieee zeroAffine negZeroAffine).mpr (by decide)

/-- C9 counterexample: a transform with a NaN coefficient is not
`affine_eq` to itself, so `affine_eq` is not reflexive (the claim says
it is an equivalence relation). -/
theorem C9_counterexample : affine_eq nanAffine nanAffine = false := by decide

/-- C9 (amended): `affine_eq` is symmetric and transitive, and it is
reflexive on every transform none of whose coefficients is NaN. -/
theorem C9_equivalence :
    (∀ t : Affine, (∀ i, i < 6 → f64IsNaN (t.as_coeffs.getD i 0) = false) →
      affine_eq t t = true) ∧
    (∀ t1 t2 : Affine, affine_eq t1 t2 = true → affine_eq t2 t1 = true) ∧
    (∀ t1 t2 t3 : Affine, affine_eq t1 t2 = true → affine_eq t2 t3 = true →
      affine_eq t1 t3 = true) := by
  refine ⟨?_, ?_, ?_⟩
  · intro t h
    cases t with
    | mk a0 a1 a2 a3 a4 a5 =>
      simp only [affine_eq, Affine.as_coeffs, f64ListEq, Bool.and_eq_true, Bool.and_true]
      exact ⟨f64Eq_refl a0 (h 0 (by omega)), f64Eq_refl a1 (h 1 (by omega)),
        f64Eq_refl a2 (h 2 (by omega)), f64Eq_refl a3 (h 3 (by omega)),
        f64Eq_refl a4 (h 4 (by omega)), f64Eq_refl a5 (h 5 (by omega))⟩
  · intro t1 t2 h
    cases t1 with
    | mk a0 a1 a2 a3 a4 a5 =>
    cases t2 with
    | mk b0 b1 b2 b3 b4 b5 =>
    simp only [affine_eq, Affine.as_coeffs, f64ListEq, Bool.and_eq_true, Bool.and_true] at h ⊢
    obtain ⟨h0, h1, h2, h3, h4, h5⟩ := h
    exact ⟨f64Eq_symm _ _ h0, f64Eq_symm _ _ h1, f64Eq_symm _ _ h2,
      f64Eq_symm _ _ h3, f64Eq_symm _ _ h4, f64Eq_symm _ _ h5⟩
  · intro t1 t2 t3 ha hb
    cases t1 with
    | mk a0 a1 a2 a3 a4 a5 =>
    cases t2 with
    | mk b0 b1 b2 b3 b4 b5 =>
    cases t3 with
    | mk c0 c1 c2 c3 c4 c5 =>
    simp only [affine_eq, Affine.as_coeffs, f64ListEq, Bool.and_eq_true, Bool.and_true]
      at ha hb ⊢
    obtain ⟨ha0, ha1, ha2, ha3, ha4, ha5⟩ := ha
    obtain ⟨hb0, hb1, hb2, hb3, hb4, hb5⟩ := hb
    exact ⟨f64Eq_trans _ _ _ ha0 hb0, f64Eq_trans _ _ _ ha1 hb1,
      f64Eq_trans _ _ _ ha2 hb2, f64Eq_trans _ _ _ ha3 hb3,
      f64Eq_trans _ _ _ ha4 hb4, f64Eq_trans _ _ _ ha5 hb5⟩

/-- C9 witness: the amended statement applied at concrete transforms. -/
theorem C9_witness :
    affine_eq zeroAffine zeroAffine = true ∧ affine_eq negZeroAffine zeroAffine = true :=
  ⟨C9_equivalence.1 zeroAffine (by decide),
   C9_equivalence.2.1 zeroAffine negZeroAffine (by decide)⟩

/-! ## Claims about the toolbar state machine -/

/-- C3 counterexample: in the default toolbar (selected index `0`),
slot `1` is in range and differs from the selection, yet handling a
click on slot `1` leaves `selected` at `0` - the click handler does not
set `selected = i` as part of that event (the claim says it does); it
only emits the command, and the selection moves when the command is
received back. -/
theorem C3_counterexample :
    1 < Toolbar.default.items.length ∧ 1 ≠ Toolbar.default.selected ∧
      (Toolbar.default.event (Event.click 1)).1.selected ≠ 1 := by decide

/-- C3 (amended): a pointer click on an in-range slot `j` different from
the current selection leaves `selected` unchanged during that event and
emits exactly one `SetActiveTool` command carrying item `j`'s tool id
(without any hotkey lookup); `selected` becomes `j` only when that
command is subsequently received by the toolbar. -/
theorem C3_click_emits (tb : Toolbar) (j : Nat) (h : j < tb.items.length)
    (hne : j ≠ tb.selected) :
    (tb.event (Event.click j)).1.selected = tb.selected ∧
    (tb.event (Event.click j)).2 = [Cmd.setTool ((tb.items.getD j blankItem).name)] := by
  refine ⟨rfl, ?_⟩
  show emitLoop tb.items 0 (Event.click j) tb.selected = _
  have := emitLoop_click_hit tb.items 0 j tb.selected (Nat.zero_le j) (by simpa using h) hne
  simpa using this

/-- C3 witness: the amended statement at the default toolbar, clicking
slot `1`. -/
theorem C3_witness :
    (Toolbar.default.event (Event.click 1)).1.selected = Toolbar.default.selected ∧
    (Toolbar.default.event (Event.click 1)).2 = [Cmd.setTool ("Pen")] :=
  C3_click_emits Toolbar.default 1 (by decide) (by decide)

/-- C4: handling a received `SetActiveTool` command never emits a
command - neither when it moves the selection (the command branch runs
before the child loop, so every child sees a flag consistent with the
updated selection) nor when it names the already-selected tool, in
which case the selection is also unchanged. -/
theorem C4_command_no_reemission (tb : Toolbar) (tool : ToolId) :
    (tb.event (Event.command (Cmd.setTool tool))).2 = [] ∧
    (position (fun item => item.name == tool) tb.items = some tb.selected →
      (tb.event (Event.command (Cmd.setTool tool))).1.selected = tb.selected) := by
  constructor
  · show emitLoop tb.items 0 (Event.command (Cmd.setTool tool)) _ = []
    exact emitLoop_command _ _ _ _
  · intro hp
    rw [event_command_selected, hp]
    rfl

/-- C4 witness: the default toolbar receiving `SetActiveTool` for the
already-selected tool: no emission, no state change. -/
theorem C4_witness :
    position (fun item => item.name == "Select") Toolbar.default.items =
        some Toolbar.default.selected ∧
    (Toolbar.default.event (Event.command (Cmd.setTool ("Select")))).2 = [] ∧
    (Toolbar.default.event (Event.command (Cmd.setTool ("Select")))).1.selected =
        Toolbar.default.selected :=
  ⟨by decide, (C4_command_no_reemission Toolbar.default ("Select")).1,
    (C4_command_no_reemission Toolbar.default ("Select")).2 (by decide)⟩

/-- C5: a toolbar built from a non-empty item list starts at index `0`,
keeps its item list fixed, and after any sequence of event transitions
(key, click, `SetActiveTool` command) the invariant
`selected < items.length` holds, with exactly one selected index. -/
theorem C5_selection_invariant (items : List ToolbarItem) (evs : List Event)
    (h : items ≠ []) :
    (Toolbar.new items).selected = 0 ∧
    ((Toolbar.new items).processEvents evs).items = items ∧
    ((Toolbar.new items).processEvents evs).selected < items.length ∧
    ∃! i : Nat, i < items.length ∧
      i = ((Toolbar.new items).processEvents evs).selected := by
  have h0 : (Toolbar.new items).selected < (Toolbar.new items).items.length := by
    show 0 < items.length
    exact List.length_pos.mpr h
  have hitems := processEvents_items_eq (Toolbar.new items) evs
  have hsel := processEvents_selected_lt (Toolbar.new items) evs h0
  rw [hitems] at hsel
  exact ⟨rfl, hitems, hsel, ⟨_, ⟨hsel, rfl⟩, fun y hy => hy.2⟩⟩

/-- C5 witness: the invariant at the default item list after a sample
event sequence covering all three transition kinds. -/
theorem C5_witness :
    defaultItems ≠ [] ∧
    ((Toolbar.new defaultItems).processEvents demoEvents).selected <
      defaultItems.length :=
  ⟨by decide, (C5_selection_invariant defaultItems demoEvents (by decide)).2.2.1⟩

/-- C6: `tool_for_keypress` returns `none` exactly when no item's hotkey
matches the key event, and returns `some tid` exactly when the first
item in registration order whose hotkey matches carries the id `tid`;
with two items bound to the same hotkey, the earlier-registered one is
therefore always the one returned. -/
theorem C6_first_hotkey_match (tb : Toolbar) (k : KeyEvent) :
    (tb.tool_for_keypress k = none ↔
      ∀ item ∈ tb.items, item.hotkey.matches k = false) ∧
    (∀ tid : ToolId, tb.tool_for_keypress k = some tid ↔
      ∃ i, i < tb.items.length ∧
        (tb.items.getD i blankItem).hotkey.matches k = true ∧
        (tb.items.getD i blankItem).name = tid ∧
        ∀ j, j < i → (tb.items.getD j blankItem).hotkey.matches k = false) := by
  constructor
  · rw [tool_for_keypress_eq_position, Option.map_eq_none']
    exact position_eq_none_iff _ _
  · intro tid
    rw [tool_for_keypress_eq_position, Option.map_eq_some']
    constructor
    · rintro ⟨i, hp, rfl⟩
      rw [position_eq_some_iff _ blankItem] at hp
      exact ⟨i, hp.1, hp.2.1, rfl, hp.2.2⟩
    · rintro ⟨i, hlen, hm, hname, hmin⟩
      exact ⟨i, (position_eq_some_iff _ blankItem _ _).mpr ⟨hlen, hm, hmin⟩, hname⟩

/-- C6 witness: in the default registry, the chord `v` resolves to the
first item, `Select`. -/
theorem C6_witness : Toolbar.default.tool_for_keypress keyV = some ("Select") :=
  ((C6_first_hotkey_match Toolbar.default keyV).2 ("Select")).mpr
    ⟨0, by decide, by decide, by decide, fun j hj => absurd hj (Nat.not_lt_zero j)⟩

/-- C7: a `SetActiveTool` command naming an id absent from `items`
leaves `selected` unchanged (a silent no-op - `Toolbar.event` is a total
function, so no error can be raised), and a command naming a present id
sets `selected` to the (first) index of that id in `items`. -/
theorem C7_set_tool_lookup (tb : Toolbar) (tid : ToolId) :
    ((∀ item ∈ tb.items, item.name ≠ tid) →
      (tb.event (Event.command (Cmd.setTool tid))).1.selected = tb.selected) ∧
    (∀ i, i < tb.items.length → (tb.items.getD i blankItem).name = tid →
      (∀ j, j < i → (tb.items.getD j blankItem).name ≠ tid) →
      (tb.event (Event.command (Cmd.setTool tid))).1.selected = i) := by
  constructor
  · intro habs
    rw [event_command_selected]
    have hnone : position (fun item => item.name == tid) tb.items = none := by
      rw [position_eq_none_iff]
      intro x hx
      simpa using habs x hx
    rw [hnone]
    rfl
  · intro i hlen hname hmin
    rw [event_command_selected]
    have hsome : position (fun item => item.name == tid) tb.items = some i := by
      refine position_complete _ blankItem _ _ hlen (by simpa using hname) ?_
      intro j hj
      simpa using hmin j hj
    rw [hsome]
    rfl

/-- C7 witness: the default toolbar ignores an unknown id and jumps to
index `1` for the id `Pen`. -/
theorem C7_witness :
    (Toolbar.default.event (Event.command (Cmd.setTool ("Bogus")))).1.selected =
        Toolbar.default.selected ∧
    (Toolbar.default.event (Event.command (Cmd.setTool ("Pen")))).1.selected = 1 :=
  ⟨(C7_set_tool_lookup Toolbar.default ("Bogus")).1 (by decide),
   (C7_set_tool_lookup Toolbar.default ("Pen")).2 1 (by decide) (by decide) (by decide)⟩

/-- C10: a click on the slot whose index equals the current selection
leaves `selected` unchanged and produces no `SetActiveTool` emission. -/
theorem C10_click_selected_noop (tb : Toolbar) :
    (tb.event (Event.click tb.selected)).1.selected = tb.selected ∧
    (tb.event (Event.click tb.selected)).2 = [] := by
  refine ⟨rfl, ?_⟩
  show emitLoop tb.items 0 (Event.click tb.selected) tb.selected = []
  exact emitLoop_click_self _ _ _

end Runebender
